import Mathlib

/-!
# Verification of the Nightscout display plugin's core logic

A shallow embedding of the main module of the plugin (the `NightscoutAction`
class): the unit/threshold converter, the Number and Graph renderers, the
fetch scheduler's delay policy and error handling, and the per-instance
timer/lifecycle discipline.  JavaScript numbers are modelled as rationals
(`ℚ`); where a code path can produce `NaN` (the graph's x-coordinate
division) a small IEEE-style number type `JSNum` is used.  Timestamps are
integers of milliseconds.  Falsiness of a JS number is `= 0`.
-/

/-! ## Data model (the `Settings` and API response types) -/

/-- The two display units (`"mgdl" | "mmol"`). -/
inductive GlucoseUnit
  | mgdl
  | mmol
deriving DecidableEq, Repr

/-- Per-button settings, thresholds as rationals; the URL/token are elided
(they only affect request construction, modelled separately by a `hasUrl`
flag in the lifecycle model). -/
structure Settings where
  unit : GlucoseUnit
  normalHigh : ℚ
  normalLow : ℚ
  urgentHigh : ℚ
  urgentLow : ℚ
  inRangeColor : String
  normalColor : String
  urgentColor : String
  graphHours : ℚ
deriving DecidableEq, Repr

/-- Default settings, `DEFAULT_SETTINGS` in the source. -/
def DEFAULT_SETTINGS : Settings :=
  { unit := .mgdl
    normalHigh := 180
    normalLow := 70
    urgentHigh := 250
    urgentLow := 55
    inRangeColor := "#00FF00"
    normalColor := "#FFFF00"
    urgentColor := "#FF0000"
    graphHours := 8 }

/-- One time bucket of the properties response (`{fromMills, toMills}`). -/
structure Bucket where
  fromMills : ℤ
  toMills : ℤ
deriving DecidableEq, Repr

/-- The properties (`NightscoutResponse`) payload: optional chains such as
`data.bgnow?.last` are collapsed into a single `Option`. -/
structure NightscoutResponse where
  bgnowLast : Option ℚ
  bgnowMills : Option ℤ
  deltaDisplay : Option String
  deltaScaled : Option ℚ
  directionLabel : Option String
  buckets : List Bucket
deriving DecidableEq, Repr

/-- One history entry (`NightscoutEntry`). -/
structure NightscoutEntry where
  sgv : ℚ
  date : ℤ
deriving DecidableEq, Repr

/-- The two display modes. -/
inductive DisplayMode
  | NUMBER
  | GRAPH
deriving DecidableEq, Repr

/-! ## Unit conversion and severity classification -/

/-- JavaScript `Math.round`: round half toward positive infinity. -/
def jsRound (x : ℚ) : ℤ := ⌊x + 1/2⌋

/-- The reading conversion of `renderNumber`:
`if (settings.unit === "mmol") last = Math.round((last / 18) * 10) / 10`. -/
def convertReading (u : GlucoseUnit) (v : ℚ) : ℚ :=
  match u with
  | .mmol => (jsRound (v / 18 * 10) : ℚ) / 10
  | .mgdl => v

/-- The three severity bands. -/
inductive Severity
  | inRange
  | normalAlert
  | urgentAlert
deriving DecidableEq, Repr

/-- The threshold if-chain shared by both renderers, as a band:
urgent when `v ≥ uh ∨ v ≤ ul`, else normal when `v ≥ nh ∨ v ≤ nl`,
else in range. -/
def classify (v uh ul nh nl : ℚ) : Severity :=
  if v ≥ uh ∨ v ≤ ul then .urgentAlert
  else if v ≥ nh ∨ v ≤ nl then .normalAlert
  else .inRange

/-- The color the settings assign to a band. -/
def severityColor (sev : Severity) (s : Settings) : String :=
  match sev with
  | .inRange => s.inRangeColor
  | .normalAlert => s.normalColor
  | .urgentAlert => s.urgentColor

/-- The color computation of `renderNumber` (lines 307–313): the converted
value is compared against the thresholds exactly as stored in the settings. -/
def numberColor (last : ℚ) (s : Settings) : String :=
  if last ≥ s.urgentHigh ∨ last ≤ s.urgentLow then s.urgentColor
  else if last ≥ s.normalHigh ∨ last ≤ s.normalLow then s.normalColor
  else s.inRangeColor

/-- Classification of a raw reading by `renderNumber`: convert the value,
compare against the raw thresholds. -/
def numberClassify (v : ℚ) (s : Settings) : Severity :=
  classify (convertReading s.unit v) s.urgentHigh s.urgentLow s.normalHigh s.normalLow

/-- Conversion of a sample value by `renderGraph` (line 370):
`settings.unit === "mmol" ? e.sgv / 18 : e.sgv` — no rounding. -/
def graphConvValue (u : GlucoseUnit) (v : ℚ) : ℚ :=
  match u with
  | .mmol => v / 18
  | .mgdl => v

/-- Conversion of a threshold by `renderGraph` (lines 374–375, 390–393):
`settings.unit === "mmol" ? t / 18 : t`. -/
def graphThreshold (u : GlucoseUnit) (t : ℚ) : ℚ :=
  match u with
  | .mmol => t / 18
  | .mgdl => t

/-- Classification of a data point by `renderGraph` (lines 413–418): the
converted sample is compared against the converted thresholds. -/
def graphPointClassify (v : ℚ) (s : Settings) : Severity :=
  classify (graphConvValue s.unit v)
    (graphThreshold s.unit s.urgentHigh) (graphThreshold s.unit s.urgentLow)
    (graphThreshold s.unit s.normalHigh) (graphThreshold s.unit s.normalLow)

/-! ## Fetch scheduling policy (lines 234–247) -/

/-- The next-fetch delay computed after a successful fetch:
default 30 000 ms; when `data.buckets?.[0]` and a truthy `data.bgnow?.mills`
are present, `nextRead = mills + (toMills - fromMills) + 15000`, and if
`nextRead > now ∧ nextRead - now < 300000` the delay is
`min(nextRead - now, 30000)`. -/
def computeSleepMs (buckets : List Bucket) (bgnowMills : Option ℤ) (now : ℤ) : ℤ :=
  match buckets.head? with
  | none => 30000
  | some bucket =>
    match bgnowMills with
    | none => 30000
    | some mills =>
      if mills = 0 then 30000
      else
        let lastDiff := bucket.toMills - bucket.fromMills
        let nextRead := mills + lastDiff + 15000
        if nextRead > now ∧ nextRead - now < 300000 then
          min (nextRead - now) 30000
        else 30000

/-- Modelled from the spec: the delay policy as the specification words it,
with the next reading's arrival estimated from the *bucket's end time*
(`toMills + (toMills - fromMills) + 15000`) rather than from the reading
timestamp, and with no requirement on `bgnow.mills`.  Used only to compare
the spec's reading of the policy with `computeSleepMs`. -/
def computeSleepMsSpec (buckets : List Bucket) (now : ℤ) : ℤ :=
  match buckets.head? with
  | none => 30000
  | some bucket =>
    let lastDiff := bucket.toMills - bucket.fromMills
    let nextRead := bucket.toMills + lastDiff + 15000
    if nextRead > now ∧ nextRead - now < 300000 then
      min (nextRead - now) 30000
    else 30000

/-! ## The fetch/store/schedule step of `fetchAndRender` (lines 178–256)

The network is abstracted by the outcome of each of the two requests; the
body is otherwise translated statement by statement.  The primary request
can fail in transport, return a non-OK status (the code then throws), or
fail to parse; the history request's status is checked with
`if (entriesResponse.ok)` so a non-OK status skips the store, while a
transport or parse failure throws into the shared `catch`. -/

/-- The data the instance stores (`lastResponse` / `lastEntries`). -/
structure FetchState where
  lastResponse : Option NightscoutResponse
  lastEntries : Option (List NightscoutEntry)
deriving DecidableEq, Repr

/-- Outcome of the primary (properties) request. -/
inductive PrimaryOutcome
  | transportErr
  | httpErr
  | parseErr
  | ok (data : NightscoutResponse)
deriving DecidableEq, Repr

/-- Outcome of the history (entries) request. -/
inductive EntriesOutcome
  | transportErr
  | httpNotOk
  | parseErr
  | ok (entries : List NightscoutEntry)
deriving DecidableEq, Repr

/-- Observable effects of one `fetchAndRender` call: whether `showAlert` was
invoked, whether `render` ran, and the delay of the scheduled next fetch
(`none` = no timer scheduled). -/
structure FetchEffects where
  alert : Bool
  rendered : Bool
  nextFetchDelay : Option ℤ
deriving DecidableEq, Repr

/-- One `fetchAndRender` call over the stored data:
* no instance → no-op;
* no URL → early return, nothing scheduled;
* primary transport/HTTP/parse failure → `catch`: alert, stored data
  untouched, retry in 60 000 ms;
* primary success → `lastResponse := data`; then the history request:
  non-OK status skips the store and the flow continues normally, while a
  transport or parse failure throws *after* the new response was stored —
  `catch`: alert, 60 000 ms retry, no render;
* otherwise render and schedule `computeSleepMs`. -/
def fetchStep (inst : Option FetchState) (hasUrl : Bool)
    (prim : PrimaryOutcome) (ent : EntriesOutcome) (now : ℤ) :
    Option FetchState × FetchEffects :=
  match inst with
  | none => (none, ⟨false, false, none⟩)
  | some st =>
    if ¬hasUrl then (some st, ⟨false, false, none⟩)
    else
      match prim with
      | .transportErr => (some st, ⟨true, false, some 60000⟩)
      | .httpErr => (some st, ⟨true, false, some 60000⟩)
      | .parseErr => (some st, ⟨true, false, some 60000⟩)
      | .ok data =>
        let st1 : FetchState := { st with lastResponse := some data }
        match ent with
        | .transportErr => (some st1, ⟨true, false, some 60000⟩)
        | .parseErr => (some st1, ⟨true, false, some 60000⟩)
        | .httpNotOk =>
          (some st1, ⟨false, true, some (computeSleepMs data.buckets data.bgnowMills now)⟩)
        | .ok es =>
          (some { st1 with lastEntries := some es },
            ⟨false, true, some (computeSleepMs data.buckets data.bgnowMills now)⟩)

/-! ## Number renderer (`renderNumber`, lines 293–352)

The SVG text assembly is elided; the renderer is modelled as the structured
content of the SVG: the converted value, the chosen color, the arrow glyph,
the delta display and the "ago" label. -/

/-- Direction-label-to-arrow map, `DIRECTION_ARROWS` in the source. -/
def DIRECTION_ARROWS : String → Option String
  | "DoubleUp" => some "⇈"
  | "SingleUp" => some "↑"
  | "FortyFiveUp" => some "↗"
  | "Flat" => some "→"
  | "FortyFiveDown" => some "↘"
  | "SingleDown" => some "↓"
  | "DoubleDown" => some "⇊"
  | "NOT COMPUTABLE" => some "?"
  | "RATE OUT OF RANGE" => some "⚠"
  | _ => none

/-- Arrow selection: `data.direction?.label || "Flat"` (empty string is
falsy), then `DIRECTION_ARROWS[directionText] || directionText`. -/
def arrowOf (d : NightscoutResponse) : String :=
  let t := match d.directionLabel with
    | none => "Flat"
    | some l => if l = "" then "Flat" else l
  match DIRECTION_ARROWS t with
  | some a => a
  | none => t

/-- Delta display content: either the upstream display string or, in mmol
mode with a truthy scaled delta, `Math.round((scaled / 18) * 100) / 100`
(the source then prefixes `+` when non-negative — pure formatting). -/
inductive DeltaDisp
  | fromUpstream (s : String)
  | convertedMmol (q : ℚ)
deriving DecidableEq, Repr

/-- Delta selection of both renderers: `data.delta?.display || ""`, replaced
by the converted scaled delta when the unit is mmol and `data.delta?.scaled`
is truthy. -/
def deltaDisplayOf (d : NightscoutResponse) (u : GlucoseUnit) : DeltaDisp :=
  let base := match d.deltaDisplay with
    | none => ""
    | some str => str
  match u, d.deltaScaled with
  | .mmol, some sc =>
    if sc = 0 then .fromUpstream base
    else .convertedMmol ((jsRound (sc / 18 * 100) : ℚ) / 100)
  | _, _ => .fromUpstream base

/-- Time-ago label (lines 327–337): minutes elapsed via
`Math.floor((now - mills) / 60000)`; `"Nm ago"` above five minutes, a run of
dashes for one to five minutes, `"now"` otherwise; empty when
`data.bgnow?.mills` is falsy. -/
def agoDisplay (bgnowMills : Option ℤ) (now : ℤ) : String :=
  match bgnowMills with
  | none => ""
  | some mills =>
    if mills = 0 then ""
    else
      let minutesAgo := Int.fdiv (now - mills) 60000
      if minutesAgo > 5 then toString minutesAgo ++ "m ago"
      else if minutesAgo > 0 then String.mk (List.replicate minutesAgo.toNat '–')
      else "now"

/-- Structured content of the Number-mode SVG. -/
inductive NumberRender
  | noData
  | reading (value : ℚ) (color : String) (arrow : String)
      (delta : DeltaDisp) (ago : String)
deriving DecidableEq, Repr

/-- Number renderer: `let last = data.bgnow?.last; if (!last)` renders the
"No Data" placeholder (so a reading of exactly 0 is falsy and treated as
absent); otherwise the converted value, its color, arrow, delta and ago
label. -/
def renderNumber (d : NightscoutResponse) (s : Settings) (now : ℤ) : NumberRender :=
  match d.bgnowLast with
  | none => .noData
  | some v =>
    if v = 0 then .noData
    else
      let last := convertReading s.unit v
      .reading last (numberColor last s) (arrowOf d) (deltaDisplayOf d s.unit)
        (agoDisplay d.bgnowMills now)

/-! ## JavaScript numbers with non-finite values

The graph's coordinate arithmetic can divide by zero
(`index / (values.length - 1)` with a single sample), so coordinates are
computed in a type carrying `NaN` and the infinities, with IEEE-754
propagation for the operations the code path uses. -/

/-- A JavaScript number: finite rational, `NaN`, or an infinity. -/
inductive JSNum
  | num (q : ℚ)
  | nan
  | inf
  | ninf
deriving DecidableEq, Repr

/-- IEEE addition. -/
def jsAdd : JSNum → JSNum → JSNum
  | .num a, .num b => .num (a + b)
  | .nan, _ => .nan
  | _, .nan => .nan
  | .inf, .ninf => .nan
  | .ninf, .inf => .nan
  | .inf, _ => .inf
  | _, .inf => .inf
  | .ninf, _ => .ninf
  | _, .ninf => .ninf

/-- IEEE negation. -/
def jsNeg : JSNum → JSNum
  | .num a => .num (-a)
  | .nan => .nan
  | .inf => .ninf
  | .ninf => .inf

/-- IEEE subtraction. -/
def jsSub (a b : JSNum) : JSNum := jsAdd a (jsNeg b)

/-- IEEE multiplication. -/
def jsMul : JSNum → JSNum → JSNum
  | .num a, .num b => .num (a * b)
  | .nan, _ => .nan
  | _, .nan => .nan
  | .inf, .inf => .inf
  | .inf, .ninf => .ninf
  | .ninf, .inf => .ninf
  | .ninf, .ninf => .inf
  | .inf, .num b => if b = 0 then .nan else if 0 < b then .inf else .ninf
  | .num a, .inf => if a = 0 then .nan else if 0 < a then .inf else .ninf
  | .ninf, .num b => if b = 0 then .nan else if 0 < b then .ninf else .inf
  | .num a, .ninf => if a = 0 then .nan else if 0 < a then .ninf else .inf

/-- IEEE division: `0 / 0` is `NaN`, `x / 0` an infinity for `x ≠ 0`. -/
def jsDiv : JSNum → JSNum → JSNum
  | .nan, _ => .nan
  | _, .nan => .nan
  | .num a, .num b =>
    if b = 0 then (if a = 0 then .nan else if 0 < a then .inf else .ninf)
    else .num (a / b)
  | .num _, .inf => .num 0
  | .num _, .ninf => .num 0
  | .inf, .num b => if 0 ≤ b then .inf else .ninf
  | .ninf, .num b => if 0 ≤ b then .ninf else .inf
  | .inf, .inf => .nan
  | .inf, .ninf => .nan
  | .ninf, .inf => .nan
  | .ninf, .ninf => .nan

/-! ## Graph renderer (`renderGraph`, lines 357–533)

Canvas constants: `WIDTH = HEIGHT = 144`, `graphTop = 28`,
`graphBottom = 126`, `graphLeft = 28`, `graphRight = 132`,
`graphHeight = 98`, `graphWidth = 104`.  The SVG markup is elided; the
renderer is modelled as the structured content it interpolates: path points,
circle markers (with their colors), header, y-labels, window length. -/

/-- Coordinate of sample `index` of `len` samples (lines 402 and 409):
`graphLeft + (index / (values.length - 1)) * graphWidth`. -/
def xCoord (len index : ℕ) : JSNum :=
  jsAdd (.num 28) (jsMul (jsDiv (.num index) (.num ((len : ℚ) - 1))) (.num 104))

/-- Vertical coordinate (lines 396–398):
`graphBottom - ((value - (minValue - padding)) / (range + 2 * padding)) * graphHeight`. -/
def getY (minValue range padding value : ℚ) : JSNum :=
  jsSub (.num 126)
    (jsMul (jsDiv (.num (value - (minValue - padding))) (.num (range + 2 * padding)))
      (.num 98))

/-- Structured content of the graph header (lines 440–467): the current
value and delta (absent when `data.bgnow?.last` is falsy), the arrow, and
the header color. -/
structure GraphHeader where
  text : Option (ℚ × DeltaDisp)
  arrow : Option String
  color : String
deriving DecidableEq, Repr

/-- Graph header: when `data.bgnow?.last` is truthy the value is converted
(mmol: `Math.round((v / 18) * 10) / 10`) and classified against the
*converted* thresholds of lines 390–393; otherwise the text and arrow are
omitted and the color stays the in-range color. -/
def graphHeader (d : NightscoutResponse) (s : Settings) : GraphHeader :=
  let uh := graphThreshold s.unit s.urgentHigh
  let ul := graphThreshold s.unit s.urgentLow
  let nh := graphThreshold s.unit s.normalHigh
  let nl := graphThreshold s.unit s.normalLow
  match d.bgnowLast with
  | none => ⟨none, none, s.inRangeColor⟩
  | some v =>
    if v = 0 then ⟨none, none, s.inRangeColor⟩
    else
      let cv := convertReading s.unit v
      let color :=
        if cv ≥ uh ∨ cv ≤ ul then s.urgentColor
        else if cv ≥ nh ∨ cv ≤ nl then s.normalColor
        else s.inRangeColor
      ⟨some (cv, deltaDisplayOf d s.unit), some (arrowOf d), color⟩

/-- Structured content of the Graph-mode SVG (marker radii and the static
decoration are elided). -/
inductive GraphRender
  | noHistory
  | graph (values : List ℚ) (pathPoints : List (JSNum × JSNum))
      (circles : List (JSNum × JSNum × String)) (header : GraphHeader)
      (yLabels : ℤ × ℤ × ℤ) (timeRangeHours : ℚ)
deriving DecidableEq, Repr

/-- Graph renderer: the `entries.length === 0` guard, the stable sort by
`date`, the unit conversion of samples and thresholds, the axis range
`[min(values ∪ {urgentLow'}), max(values ∪ {urgentHigh'})]` with 15%
padding, the per-index coordinates, the per-sample severity colors, the
header, and the rounded max/mid/min axis labels. -/
def renderGraph (d : NightscoutResponse) (entries : List NightscoutEntry)
    (s : Settings) : GraphRender :=
  if entries.length = 0 then .noHistory
  else
    let sorted := entries.mergeSort (fun a b => a.date ≤ b.date)
    let values := sorted.map (fun e => graphConvValue s.unit e.sgv)
    let maxThreshold := graphThreshold s.unit s.urgentHigh
    let minThreshold := graphThreshold s.unit s.urgentLow
    let maxValue := values.foldr max maxThreshold
    let minValue := values.foldr min minThreshold
    let range := maxValue - minValue
    let padding := range * (15 / 100)
    let uh := graphThreshold s.unit s.urgentHigh
    let ul := graphThreshold s.unit s.urgentLow
    let nh := graphThreshold s.unit s.normalHigh
    let nl := graphThreshold s.unit s.normalLow
    let len := values.length
    let pathPoints := values.enum.map
      (fun p => (xCoord len p.1, getY minValue range padding p.2))
    let circles := values.enum.map
      (fun p => (xCoord len p.1, getY minValue range padding p.2,
        severityColor (classify p.2 uh ul nh nl) s))
    let maxLabel := jsRound (maxValue + padding)
    let minLabel := jsRound (minValue - padding)
    let midLabel := jsRound (((maxLabel : ℚ) + (minLabel : ℚ)) / 2)
    .graph values pathPoints circles (graphHeader d s)
      (maxLabel, midLabel, minLabel) s.graphHours

/-! ## Instance registry, timers and lifecycle (lines 75–288)

The host's event loop is modelled as a state machine: the process-wide
`instances` map, the set of pending `setTimeout` callbacks (a list of
`Timer` records with globally fresh ids — `clearTimeout` removes by id, a
fired or cleared timer leaves the list), and the fresh-id counter.  The
network and rendering outcomes of a `fetchAndRender` body are supplied by an
`Oracle`.  Each emitted call record `(ctx, kind)` marks an execution of
`fetchAndRender` past its instance guard (a network fetch) or of `render`
past its guard. -/

/-- The two timer concerns of an instance. -/
inductive TimerKind
  | fetch
  | render
deriving DecidableEq, Repr

/-- A pending `setTimeout` callback. -/
structure Timer where
  id : ℕ
  ctx : String
  kind : TimerKind
deriving DecidableEq, Repr

/-- Per-instance state: mode, press timestamp, the two timer handles
(`clearTimeout` does not blank the field, so a handle may be stale), and
whether a response has been stored (`lastResponse` presence, the guard of
`render`). -/
structure Inst where
  displayMode : DisplayMode
  keyDownTime : Option ℤ
  fetchTimeout : Option ℕ
  renderTimeout : Option ℕ
  hasResponse : Bool
deriving DecidableEq, Repr

/-- The instance created by `onWillAppear`. -/
def freshInst : Inst :=
  { displayMode := .NUMBER, keyDownTime := none, fetchTimeout := none
    renderTimeout := none, hasResponse := false }

/-- The process state. -/
structure SysState where
  instances : String → Option Inst
  timers : List Timer
  nextId : ℕ

/-- Point update of the instance map. -/
def updInst (f : String → Option Inst) (k : String) (v : Option Inst) :
    String → Option Inst :=
  fun x => if x = k then v else f x

/-- `if (handle) clearTimeout(handle)`: remove the pending timer with that
id, if any. -/
def clearT (h : Option ℕ) (ts : List Timer) : List Timer :=
  match h with
  | none => ts
  | some i => ts.filter (fun t => t.id != i)

/-- Outcomes of the I/O a `fetchAndRender` body performs: whether a URL is
configured, whether the primary fetch chain succeeds, whether the render
body succeeds. -/
structure Oracle where
  hasUrl : Bool
  fetchOk : Bool
  renderOk : Bool
deriving DecidableEq, Repr

/-- Kinds of observable calls. -/
inductive CallKind
  | fetchCall
  | renderCall
deriving DecidableEq, Repr

/-- One `render(contextId, settings)` call (lines 261–288): no-op without an
instance or stored response; otherwise it renders (emits a `renderCall`),
and on success clears any pending render timer and schedules a fresh one
(the `catch` skips the reschedule). -/
def renderOp (s : SysState) (ctx : String) (renderOk : Bool) :
    SysState × List (String × CallKind) :=
  match s.instances ctx with
  | none => (s, [])
  | some i =>
    if i.hasResponse = false then (s, [])
    else if renderOk then
      ({ instances := updInst s.instances ctx (some { i with renderTimeout := some s.nextId })
         timers := clearT i.renderTimeout s.timers ++ [⟨s.nextId, ctx, .render⟩]
         nextId := s.nextId + 1 }, [(ctx, .renderCall)])
    else (s, [(ctx, .renderCall)])

/-- One `fetchAndRender(contextId, settings, forceRefresh)` call (lines
178–256): no-op without an instance; clears both pending timers; returns
idle without a URL; on failure stores nothing, schedules a 60 s retry (and
emits the fetch call — the alert is modelled in `fetchStep`); on success
marks the response stored, runs `render` synchronously, then schedules the
next fetch.  `forceRefresh` is accepted and, as in the source body, never
read. -/
def fetchOp (s : SysState) (ctx : String) (o : Oracle) (forceRefresh : Bool) :
    SysState × List (String × CallKind) :=
  match s.instances ctx with
  | none => (s, [])
  | some i =>
    let s1 : SysState := { s with timers := clearT i.renderTimeout (clearT i.fetchTimeout s.timers) }
    if o.hasUrl = false then (s1, [])
    else if o.fetchOk = false then
      ({ instances := updInst s1.instances ctx (some { i with fetchTimeout := some s1.nextId })
         timers := s1.timers ++ [⟨s1.nextId, ctx, .fetch⟩]
         nextId := s1.nextId + 1 }, [(ctx, .fetchCall)])
    else
      let s2 : SysState :=
        { s1 with instances := updInst s1.instances ctx (some { i with hasResponse := true }) }
      let r := renderOp s2 ctx o.renderOk
      match r.1.instances ctx with
      | none => (r.1, (ctx, .fetchCall) :: r.2)
      | some i2 =>
        ({ instances := updInst r.1.instances ctx (some { i2 with fetchTimeout := some r.1.nextId })
           timers := r.1.timers ++ [⟨r.1.nextId, ctx, .fetch⟩]
           nextId := r.1.nextId + 1 }, (ctx, .fetchCall) :: r.2)

/-- Short-press mode toggle. -/
def toggleMode : DisplayMode → DisplayMode
  | .NUMBER => .GRAPH
  | .GRAPH => .NUMBER

/-- The host events driving the machine; `fire tid` is the event loop
running the pending callback with that id. -/
inductive Event
  | appear (ctx : String) (o : Oracle)
  | disappear (ctx : String)
  | keyDown (ctx : String) (t : ℤ)
  | keyUp (ctx : String) (now : ℤ) (o : Oracle)
  | settingsChanged (ctx : String) (o : Oracle)
  | fire (tid : ℕ) (o : Oracle)

/-- One event step, returning the new state and the calls it performed:
* `appear` stores a fresh instance, then runs `fetchAndRender`;
* `disappear` clears both timers and removes the instance;
* `keyDown` records the press time;
* `keyUp` with no truthy recorded press is ignored; held `≥ 500` ms it runs
  `fetchAndRender` with `forceRefresh = true`, else it toggles the mode and
  runs `render`;
* `settingsChanged` runs `fetchAndRender`;
* `fire` removes the fired timer and runs its callback. -/
def stepC (s : SysState) (e : Event) : SysState × List (String × CallKind) :=
  match e with
  | .appear ctx o =>
    fetchOp { s with instances := updInst s.instances ctx (some freshInst) } ctx o false
  | .disappear ctx =>
    match s.instances ctx with
    | none => (s, [])
    | some i =>
      ({ instances := updInst s.instances ctx none
         timers := clearT i.renderTimeout (clearT i.fetchTimeout s.timers)
         nextId := s.nextId }, [])
  | .keyDown ctx t =>
    match s.instances ctx with
    | none => (s, [])
    | some i =>
      ({ s with instances := updInst s.instances ctx (some { i with keyDownTime := some t }) }, [])
  | .keyUp ctx now o =>
    match s.instances ctx with
    | none => (s, [])
    | some i =>
      match i.keyDownTime with
      | none => (s, [])
      | some t0 =>
        if t0 = 0 then (s, [])
        else
          let s1 : SysState :=
            { s with instances := updInst s.instances ctx (some { i with keyDownTime := none }) }
          if now - t0 ≥ 500 then fetchOp s1 ctx o true
          else
            let i2 : Inst := { i with keyDownTime := none, displayMode := toggleMode i.displayMode }
            renderOp { s1 with instances := updInst s1.instances ctx (some i2) } ctx o.renderOk
  | .settingsChanged ctx o => fetchOp s ctx o false
  | .fire tid o =>
    match s.timers.find? (fun t => t.id == tid) with
    | none => (s, [])
    | some t =>
      let s1 : SysState := { s with timers := s.timers.filter (fun u => u.id != tid) }
      match t.kind with
      | .fetch => fetchOp s1 t.ctx o false
      | .render => renderOp s1 t.ctx o.renderOk

/-- Run a list of events. -/
def run (s : SysState) : List Event → SysState
  | [] => s
  | e :: es => run (stepC s e).1 es

/-- All calls performed while running a list of events. -/
def traceCalls (s : SysState) : List Event → List (String × CallKind)
  | [] => []
  | e :: es => (stepC s e).2 ++ traceCalls (stepC s e).1 es

/-- Host well-formedness of a trace: an appearance only arrives for an
identity that is not currently live (the host pairs appearance and
disappearance). -/
def Valid (s : SysState) : List Event → Prop
  | [] => True
  | e :: es =>
    (match e with
     | .appear ctx _ => s.instances ctx = none
     | _ => True) ∧ Valid (stepC s e).1 es

/-- The handle an instance stores for a timer kind. -/
def handleOf (i : Inst) : TimerKind → Option ℕ
  | .fetch => i.fetchTimeout
  | .render => i.renderTimeout

/-- The machine invariant: timer ids are below the fresh counter and
pairwise distinct, and every pending timer is owned — its context is live
and the instance's handle of that kind is exactly the timer's id.  This is
what makes "at most one pending timer per instance and kind" true and makes
teardown total. -/
def SysInv (s : SysState) : Prop :=
  (∀ t ∈ s.timers, t.id < s.nextId) ∧
  s.timers.Pairwise (fun a b => a.id ≠ b.id) ∧
  (∀ t ∈ s.timers, ∃ i, s.instances t.ctx = some i ∧ handleOf i t.kind = some t.id)

/-- The empty start state. -/
def initState : SysState := ⟨fun _ => none, [], 0⟩

/-! ## Remaining definitions used by the theorem statements -/

/-- Default settings with the mmol unit selected. -/
def mmolDefaultSettings : Settings := { DEFAULT_SETTINGS with unit := .mmol }

/-- The x coordinates of the emitted trend-line path. -/
def pathXs : GraphRender → Option (List JSNum)
  | .noHistory => none
  | .graph _ pps _ _ _ _ => some (pps.map Prod.fst)

/-- The x coordinates of the emitted data-point circles. -/
def circleXs : GraphRender → Option (List JSNum)
  | .noHistory => none
  | .graph _ _ cs _ _ _ => some (cs.map fun c => c.1)

/-- The pending timers of one context and kind. -/
def timersFor (s : SysState) (c : String) (k : TimerKind) : List Timer :=
  s.timers.filter fun t => decide (t.ctx = c ∧ t.kind = k)

/-! ## Theorems -/

/-- C5: in Number mode the displayed color of a converted reading is the
urgent color exactly when the value is at or beyond an urgent threshold,
else the normal-alert color exactly when it is at or beyond a normal
threshold, else the in-range color — boundaries inclusive on the alert
side. -/
theorem number_mode_color_classification (v : ℚ) (s : Settings) :
    numberColor (convertReading s.unit v) s = severityColor (numberClassify v s) s
    ∧ (numberClassify v s = .urgentAlert ↔
        (convertReading s.unit v ≥ s.urgentHigh ∨ convertReading s.unit v ≤ s.urgentLow))
    ∧ (numberClassify v s = .normalAlert ↔
        (¬(convertReading s.unit v ≥ s.urgentHigh ∨ convertReading s.unit v ≤ s.urgentLow)
          ∧ (convertReading s.unit v ≥ s.normalHigh ∨ convertReading s.unit v ≤ s.normalLow)))
    ∧ (numberClassify v s = .inRange ↔
        (¬(convertReading s.unit v ≥ s.urgentHigh ∨ convertReading s.unit v ≤ s.urgentLow)
          ∧ ¬(convertReading s.unit v ≥ s.normalHigh ∨ convertReading s.unit v ≤ s.normalLow))) := by
  unfold numberClassify classify numberColor severityColor
  split_ifs with h1 h2 <;> simp_all

/-- C6: the Number-mode conversion divides by 18 and rounds to one decimal
place for mmol and is the identity for mg/dl; the mmol result is within
1/20 of the exact quotient, so multiplying back by 18 reproduces the
original value to within 9/10 of an mg/dl — inside the claimed 0.1-of-a-
display-step tolerance (0.1 mmol = 1.8 mg/dl). -/
theorem unit_conversion_roundtrip (v : ℚ) :
    convertReading .mgdl v = v
    ∧ convertReading .mmol v = (jsRound (v / 18 * 10) : ℚ) / 10
    ∧ |convertReading .mmol v - v / 18| ≤ 1 / 20
    ∧ |18 * convertReading .mmol v - v| ≤ 9 / 10 := by
  have h1 : ((⌊v / 18 * 10 + 1 / 2⌋ : ℤ) : ℚ) ≤ v / 18 * 10 + 1 / 2 := Int.floor_le _
  have h2 : v / 18 * 10 + 1 / 2 < ((⌊v / 18 * 10 + 1 / 2⌋ : ℤ) : ℚ) + 1 := Int.lt_floor_add_one _
  have h3 : |convertReading .mmol v - v / 18| ≤ 1 / 20 := by
    simp only [convertReading, jsRound]
    rw [abs_le]
    constructor <;> nlinarith
  refine ⟨rfl, rfl, h3, ?_⟩
  rcases abs_le.mp h3 with ⟨hl, hr⟩
  rw [abs_le]
  constructor <;> nlinarith

/-- C1: the two renderers disagree on severity in mmol mode — at reading
180 with the default thresholds, `renderNumber` compares the converted
value 10.0 against the unconverted thresholds and classifies urgent
(10 ≤ urgentLow = 55), while `renderGraph` compares 10 against the
converted thresholds and classifies normal-alert (10 ≥ normalHigh/18). -/
theorem number_graph_severity_diverge :
    numberClassify 180 mmolDefaultSettings = .urgentAlert
    ∧ graphPointClassify 180 mmolDefaultSettings = .normalAlert
    ∧ numberClassify 180 mmolDefaultSettings ≠ graphPointClassify 180 mmolDefaultSettings := by
  have h1 : numberClassify 180 mmolDefaultSettings = .urgentAlert := by
    norm_num [numberClassify, classify, convertReading, jsRound, mmolDefaultSettings,
      DEFAULT_SETTINGS]
  have h2 : graphPointClassify 180 mmolDefaultSettings = .normalAlert := by
    norm_num [graphPointClassify, classify, graphConvValue, graphThreshold, mmolDefaultSettings,
      DEFAULT_SETTINGS]
  exact ⟨h1, h2, by rw [h1, h2]; exact fun h => Severity.noConfusion h⟩

/-- C2 counterexample: the claim reads the arrival estimate as
`bucket.toMills + duration + 15 s`, but the code uses
`bgnow.mills + duration + 15 s`.  With bucket `[995000, 1000000]`, reading
timestamp 990000 and now 1000000, the code schedules 10 s while the claim's
formula (estimate 1020000, 20 s ahead, within 5 min) demands 20 s. -/
theorem schedule_estimate_base_cex :
    computeSleepMs [⟨995000, 1000000⟩] (some 990000) 1000000 = 10000
    ∧ computeSleepMsSpec [⟨995000, 1000000⟩] 1000000 = 20000 := by
  constructor <;> norm_num [computeSleepMs, computeSleepMsSpec]

/-- C2 amended: on success the next fetch is scheduled with
`computeSleepMs`; the default is 30 s, and when a most-recent bucket *and a
truthy reading timestamp* are present the arrival estimate is the reading
timestamp (`bgnow.mills`) plus the bucket duration plus 15 s — if that
estimate is strictly in the future and within 5 minutes the delay is
`min(estimate − now, 30 s)`, otherwise the default applies (20 s ahead
gives 20 s, 10 minutes ahead gives 30 s, in the past gives 30 s). -/
theorem fetch_schedule_policy (b : Bucket) (mills now : ℤ) (hm : mills ≠ 0) :
    (∀ (st : FetchState) (data : NightscoutResponse) (es : List NightscoutEntry),
      (fetchStep (some st) true (.ok data) (.ok es) now).2.nextFetchDelay
        = some (computeSleepMs data.buckets data.bgnowMills now))
    ∧ computeSleepMs [] (some mills) now = 30000
    ∧ computeSleepMs [b] none now = 30000
    ∧ (computeSleepMs [b] (some mills) now =
        if mills + (b.toMills - b.fromMills) + 15000 > now
            ∧ (mills + (b.toMills - b.fromMills) + 15000) - now < 300000 then
          min ((mills + (b.toMills - b.fromMills) + 15000) - now) 30000
        else 30000)
    ∧ computeSleepMs [⟨0, 300000⟩] (some 1000000) 1295000 = 20000
    ∧ computeSleepMs [⟨0, 300000⟩] (some 1000000) 715000 = 30000
    ∧ computeSleepMs [⟨0, 300000⟩] (some 1000000) 1400000 = 30000 := by
  refine ⟨fun st data es => rfl, rfl, rfl, ?_, ?_, ?_, ?_⟩
  · simp [computeSleepMs, hm]
  · norm_num [computeSleepMs]
  · norm_num [computeSleepMs]
  · norm_num [computeSleepMs]

/-- Closed instance of `fetch_schedule_policy` at bucket `[0, 300000]`,
reading timestamp 1000000. -/
theorem fetch_schedule_policy_witness :
    (1000000 : ℤ) ≠ 0
    ∧ computeSleepMs [⟨0, 300000⟩] (some 1000000) 1295000 = 20000 := by
  refine ⟨by norm_num, ?_⟩
  exact (fetch_schedule_policy ⟨0, 300000⟩ 1000000 1295000 (by norm_num)).2.2.2.2.1

/-- C3 counterexample: a transport error on the history request alone is
*not* silently tolerated — the exception reaches the shared catch, so the
alert is shown and the 60 s error retry is scheduled (and the new snapshot,
already stored, is kept). -/
theorem history_transport_error_cex :
    fetchStep (some ⟨none, none⟩) true
        (.ok ⟨some 120, some 1000, none, none, none, []⟩) .transportErr 0
      = (some ⟨some ⟨some 120, some 1000, none, none, none, []⟩, none⟩,
         ⟨true, false, some 60000⟩) := by
  rfl

/-- C3 amended: only a non-OK HTTP status on the history request is
silently tolerated (stale history retained, no alert, normal scheduling);
a transport or parse failure on the history request falls into the general
error path — alert, no render, 60 s retry — with the new snapshot already
stored. -/
theorem history_failure_policy (st : FetchState) (d : NightscoutResponse)
    (es : List NightscoutEntry) (now : ℤ) :
    fetchStep (some st) true (.ok d) .httpNotOk now
      = (some { st with lastResponse := some d },
         ⟨false, true, some (computeSleepMs d.buckets d.bgnowMills now)⟩)
    ∧ fetchStep (some st) true (.ok d) .transportErr now
      = (some { st with lastResponse := some d }, ⟨true, false, some 60000⟩)
    ∧ fetchStep (some st) true (.ok d) .parseErr now
      = (some { st with lastResponse := some d }, ⟨true, false, some 60000⟩)
    ∧ fetchStep (some st) true (.ok d) (.ok es) now
      = (some ⟨some d, some es⟩,
         ⟨false, true, some (computeSleepMs d.buckets d.bgnowMills now)⟩) :=
  ⟨rfl, rfl, rfl, rfl⟩

/-- C4: a failed primary fetch (non-OK status or parse failure) shows the
alert, leaves the stored snapshot and history exactly as they were, and
schedules the fixed 60 s retry. -/
theorem primary_failure_policy (st : FetchState) (prim : PrimaryOutcome)
    (ent : EntriesOutcome) (now : ℤ)
    (h : prim = .httpErr ∨ prim = .parseErr) :
    fetchStep (some st) true prim ent now = (some st, ⟨true, false, some 60000⟩) := by
  rcases h with h | h <;> subst h <;> rfl

/-- Closed instance of `primary_failure_policy` at an HTTP error. -/
theorem primary_failure_policy_witness :
    (PrimaryOutcome.httpErr = PrimaryOutcome.httpErr
      ∨ PrimaryOutcome.httpErr = PrimaryOutcome.parseErr)
    ∧ fetchStep (some ⟨none, none⟩) true .httpErr .httpNotOk 0
      = (some ⟨none, none⟩, ⟨true, false, some 60000⟩) :=
  ⟨Or.inl rfl, primary_failure_policy ⟨none, none⟩ .httpErr .httpNotOk 0 (Or.inl rfl)⟩

/-- C9: a single-sample history passes the `length === 0` guard, and every
x coordinate — in the trend-line path and in the circle markers — is
`0 / (1 - 1)`, the NaN of an unguarded division by zero; only the
zero-sample case renders the "No History" placeholder. -/
theorem single_sample_graph_nan (d : NightscoutResponse) (e : NightscoutEntry)
    (s : Settings) :
    pathXs (renderGraph d [e] s) = some [JSNum.nan]
    ∧ circleXs (renderGraph d [e] s) = some [JSNum.nan]
    ∧ renderGraph d [] s = .noHistory := by
  refine ⟨?_, ?_, rfl⟩ <;>
    simp [renderGraph, pathXs, circleXs, xCoord, jsDiv, jsMul, jsAdd, List.mergeSort]

/-- C10: a current reading of exactly 0 renders identically to an absent
reading — `renderNumber` yields the "No Data" placeholder, and the graph
header omits the value and arrow and keeps the in-range color — because
presence is tested by numeric truthiness. -/
theorem zero_reading_treated_as_absent (d : NightscoutResponse) (s : Settings)
    (now : ℤ) :
    renderNumber { d with bgnowLast := some 0 } s now
      = renderNumber { d with bgnowLast := none } s now
    ∧ renderNumber { d with bgnowLast := some 0 } s now = .noData
    ∧ graphHeader { d with bgnowLast := some 0 } s
      = graphHeader { d with bgnowLast := none } s
    ∧ (graphHeader { d with bgnowLast := some 0 } s).text = none
    ∧ (graphHeader { d with bgnowLast := some 0 } s).arrow = none
    ∧ (graphHeader { d with bgnowLast := some 0 } s).color = s.inRangeColor := by
  refine ⟨?_, ?_, ?_, ?_, ?_, ?_⟩ <;> simp [renderNumber, graphHeader]

/-! ### Timer-model helper lemmas -/

theorem updInst_same (f : String → Option Inst) (k : String) (v : Option Inst) :
    updInst f k v k = v := by
  simp [updInst]

theorem updInst_ne (f : String → Option Inst) (k : String) (v : Option Inst)
    (x : String) (h : x ≠ k) : updInst f k v x = f x := by
  simp [updInst, h]

theorem updInst_idem (f : String → Option Inst) (k : String) (v w : Option Inst) :
    updInst (updInst f k v) k w = updInst f k w := by
  funext x
  by_cases h : x = k <;> simp [updInst, h]

theorem mem_clearT {t : Timer} {h : Option ℕ} {ts : List Timer}
    (ht : t ∈ clearT h ts) : t ∈ ts := by
  cases h with
  | none => exact ht
  | some n => exact (List.mem_filter.mp ht).1

theorem mem_clearT_some {t : Timer} {n : ℕ} {ts : List Timer} :
    t ∈ clearT (some n) ts ↔ t ∈ ts ∧ t.id ≠ n := by
  simp [clearT, List.mem_filter]

theorem clearT_sublist (h : Option ℕ) (ts : List Timer) :
    (clearT h ts).Sublist ts := by
  cases h with
  | none => exact List.Sublist.refl ts
  | some n => exact List.filter_sublist ts


theorem renderOp_frame (s : SysState) (ctx : String) (ro : Bool) :
    (∀ c, c ≠ ctx → (renderOp s ctx ro).1.instances c = s.instances c)
    ∧ (∀ p ∈ (renderOp s ctx ro).2, p.1 = ctx)
    ∧ (s.instances ctx = none → renderOp s ctx ro = (s, [])) := by
  unfold renderOp
  cases h : s.instances ctx with
  | none => simp
  | some i =>
    dsimp only
    split_ifs with h1 h2 <;> simp_all [updInst_ne]

theorem renderOp_inst_fields (s : SysState) (ctx : String) (ro : Bool) (i : Inst)
    (hi : s.instances ctx = some i) :
    ∃ j, (renderOp s ctx ro).1.instances ctx = some j
      ∧ j.displayMode = i.displayMode ∧ j.keyDownTime = i.keyDownTime
      ∧ j.fetchTimeout = i.fetchTimeout ∧ j.hasResponse = i.hasResponse := by
  unfold renderOp
  rw [hi]
  dsimp only
  split_ifs with h1 h2
  · exact ⟨i, hi, rfl, rfl, rfl, rfl⟩
  · exact ⟨{ i with renderTimeout := some s.nextId }, by simp [updInst_same], rfl, rfl, rfl, rfl⟩
  · exact ⟨i, hi, rfl, rfl, rfl, rfl⟩

theorem renderOp_renderCall_mem (s : SysState) (ctx : String) (ro : Bool) (i : Inst)
    (hi : s.instances ctx = some i) :
    ((ctx, CallKind.renderCall) ∈ (renderOp s ctx ro).2) ↔ i.hasResponse = true := by
  unfold renderOp
  rw [hi]
  dsimp only
  split_ifs with h1 h2 <;> simp_all

theorem renderOp_no_fetchCall (s : SysState) (ctx : String) (ro : Bool) :
    (ctx, CallKind.fetchCall) ∉ (renderOp s ctx ro).2 := by
  unfold renderOp
  cases h : s.instances ctx with
  | none => simp
  | some i =>
    dsimp only
    split_ifs <;> simp

theorem renderOp_inv (s : SysState) (ctx : String) (ro : Bool) (hInv : SysInv s) :
    SysInv (renderOp s ctx ro).1
    ∧ s.nextId ≤ (renderOp s ctx ro).1.nextId
    ∧ (∀ t ∈ (renderOp s ctx ro).1.timers,
        t ∈ s.timers ∨ (t.ctx = ctx ∧ t.kind = .render)) := by
  obtain ⟨hbound, hpw, howns⟩ := hInv
  unfold renderOp
  cases h : s.instances ctx with
  | none => exact ⟨⟨hbound, hpw, howns⟩, le_refl _, fun t ht => Or.inl ht⟩
  | some i =>
    dsimp only
    split_ifs with h1 h2
    · exact ⟨⟨hbound, hpw, howns⟩, le_refl _, fun t ht => Or.inl ht⟩
    · refine ⟨⟨?_, ?_, ?_⟩, ?_, ?_⟩
      · intro t ht
        rcases List.mem_append.mp ht with ht | ht
        · exact Nat.lt_succ_of_lt (hbound t (mem_clearT ht))
        · simp at ht
          simp [ht]
      · rw [List.pairwise_append]
        refine ⟨hpw.sublist (clearT_sublist _ _), List.pairwise_singleton _ _, ?_⟩
        intro a ha b hb
        simp at hb
        subst hb
        exact Nat.ne_of_lt (hbound a (mem_clearT ha))
      · intro t ht
        rcases List.mem_append.mp ht with ht | ht
        · by_cases hc : t.ctx = ctx
          · obtain ⟨j, hj1, hj2⟩ := howns t (mem_clearT ht)
            rw [hc, h] at hj1
            injection hj1 with hj1
            subst hj1
            cases hk : t.kind with
            | render =>
              exfalso
              rw [hk] at hj2
              simp only [handleOf] at hj2
              rw [hj2] at ht
              exact (mem_clearT_some.mp ht).2 rfl
            | fetch =>
              refine ⟨{ i with renderTimeout := some s.nextId }, ?_, ?_⟩
              · rw [hc]
                simp [updInst_same]
              · rw [hk] at hj2
                simpa [handleOf] using hj2
          · obtain ⟨j, hj1, hj2⟩ := howns t (mem_clearT ht)
            exact ⟨j, by simpa [updInst_ne _ _ _ _ hc] using hj1, hj2⟩
        · simp at ht
          subst ht
          exact ⟨{ i with renderTimeout := some s.nextId }, by simp [updInst_same],
            by simp [handleOf]⟩
      · exact Nat.le_succ _
      · intro t ht
        rcases List.mem_append.mp ht with ht | ht
        · exact Or.inl (mem_clearT ht)
        · simp at ht
          subst ht
          exact Or.inr ⟨rfl, rfl⟩
    · exact ⟨⟨hbound, hpw, howns⟩, le_refl _, fun t ht => Or.inl ht⟩

theorem no_ctx_timers_clear2 (s : SysState) (ctx : String) (i : Inst)
    (howns : ∀ t ∈ s.timers, ∃ j, s.instances t.ctx = some j ∧ handleOf j t.kind = some t.id)
    (hi : s.instances ctx = some i) :
    ∀ t ∈ clearT i.renderTimeout (clearT i.fetchTimeout s.timers), t.ctx ≠ ctx := by
  intro t ht hc
  obtain ⟨j, hj1, hj2⟩ := howns t (mem_clearT (mem_clearT ht))
  rw [hc, hi] at hj1
  injection hj1 with hj1
  subst hj1
  cases hk : t.kind with
  | fetch =>
    rw [hk] at hj2
    simp only [handleOf] at hj2
    have h2 : t ∈ clearT i.fetchTimeout s.timers := mem_clearT ht
    rw [hj2] at h2
    exact (mem_clearT_some.mp h2).2 rfl
  | render =>
    rw [hk] at hj2
    simp only [handleOf] at hj2
    rw [hj2] at ht
    exact (mem_clearT_some.mp ht).2 rfl

theorem SysInv_sub (s : SysState) (ts : List Timer) (hsub : ts.Sublist s.timers)
    (hInv : SysInv s) : SysInv { s with timers := ts } := by
  obtain ⟨hb, hp, ho⟩ := hInv
  exact ⟨fun t ht => hb t (hsub.subset ht), hp.sublist hsub,
    fun t ht => ho t (hsub.subset ht)⟩

theorem SysInv_upd (s : SysState) (ctx : String) (i i' : Inst) (hInv : SysInv s)
    (hi : s.instances ctx = some i)
    (hf : i'.fetchTimeout = i.fetchTimeout) (hr : i'.renderTimeout = i.renderTimeout) :
    SysInv { s with instances := updInst s.instances ctx (some i') } := by
  obtain ⟨hb, hp, ho⟩ := hInv
  refine ⟨hb, hp, ?_⟩
  intro t ht
  obtain ⟨j, hj1, hj2⟩ := ho t ht
  by_cases hc : t.ctx = ctx
  · rw [hc, hi] at hj1
    injection hj1 with hj1
    subst hj1
    refine ⟨i', by rw [hc]; simp [updInst_same], ?_⟩
    cases hk : t.kind with
    | fetch =>
      rw [hk] at hj2
      simp only [handleOf] at hj2 ⊢
      rw [hf]
      exact hj2
    | render =>
      rw [hk] at hj2
      simp only [handleOf] at hj2 ⊢
      rw [hr]
      exact hj2
  · exact ⟨j, by dsimp only; rwa [updInst_ne _ _ _ _ hc], hj2⟩

theorem schedule_fetch_inv (w : SysState) (ctx : String) (i2 : Inst)
    (hw : SysInv w) (hi2 : w.instances ctx = some i2)
    (hnf : ∀ t ∈ w.timers, t.ctx = ctx → t.kind = .render) :
    SysInv ⟨updInst w.instances ctx (some { i2 with fetchTimeout := some w.nextId }),
            w.timers ++ [⟨w.nextId, ctx, .fetch⟩], w.nextId + 1⟩ := by
  obtain ⟨hb, hp, ho⟩ := hw
  refine ⟨?_, ?_, ?_⟩
  · intro t ht
    rcases List.mem_append.mp ht with ht | ht
    · exact Nat.lt_succ_of_lt (hb t ht)
    · simp at ht
      simp [ht]
  · rw [List.pairwise_append]
    refine ⟨hp, List.pairwise_singleton _ _, ?_⟩
    intro a ha b hb'
    simp at hb'
    subst hb'
    exact Nat.ne_of_lt (hb a ha)
  · intro t ht
    rcases List.mem_append.mp ht with ht | ht
    · by_cases hc : t.ctx = ctx
      · have hk := hnf t ht hc
        obtain ⟨j, hj1, hj2⟩ := ho t ht
        rw [hc, hi2] at hj1
        injection hj1 with hj1
        subst hj1
        refine ⟨{ i2 with fetchTimeout := some w.nextId }, by rw [hc]; simp [updInst_same], ?_⟩
        rw [hk] at hj2 ⊢
        simpa [handleOf] using hj2
      · obtain ⟨j, hj1, hj2⟩ := ho t ht
        exact ⟨j, by dsimp only; rwa [updInst_ne _ _ _ _ hc], hj2⟩
    · simp at ht
      subst ht
      exact ⟨{ i2 with fetchTimeout := some w.nextId }, by simp [updInst_same],
        by simp [handleOf]⟩

theorem fetchOp_frame (s : SysState) (ctx : String) (o : Oracle) (fr : Bool) :
    (∀ c, c ≠ ctx → (fetchOp s ctx o fr).1.instances c = s.instances c)
    ∧ (∀ p ∈ (fetchOp s ctx o fr).2, p.1 = ctx)
    ∧ (s.instances ctx = none → fetchOp s ctx o fr = (s, [])) := by
  unfold fetchOp
  cases h : s.instances ctx with
  | none => simp
  | some i =>
    dsimp only
    split_ifs with h1 h2
    · refine ⟨fun c hc => rfl, by simp, ?_⟩
      intro hn
      exact hn.elim
    · refine ⟨?_, ?_, ?_⟩
      · intro c hc
        dsimp only
        exact updInst_ne _ _ _ _ hc
      · intro p hp
        simp at hp
        simp [hp]
      · intro hn
        exact hn.elim
    · have hf := renderOp_frame
        ⟨updInst s.instances ctx (some { i with hasResponse := true }),
          clearT i.renderTimeout (clearT i.fetchTimeout s.timers), s.nextId⟩ ctx o.renderOk
      refine ⟨?_, ?_, ?_⟩
      · intro c hc
        have h1c := hf.1 c hc
        split
        · exact h1c.trans (updInst_ne _ _ _ _ hc)
        · dsimp only
          rw [updInst_ne _ _ _ _ hc]
          exact h1c.trans (updInst_ne _ _ _ _ hc)
      · intro p hp
        revert hp
        split <;> intro hp <;> rcases List.mem_cons.mp hp with rfl | hp
        · rfl
        · exact hf.2.1 p hp
        · rfl
        · exact hf.2.1 p hp
      · intro hn
        exact hn.elim

theorem fetchOp_fetchCall_mem (s : SysState) (ctx : String) (o : Oracle) (fr : Bool)
    (i : Inst) (hi : s.instances ctx = some i) :
    ((ctx, CallKind.fetchCall) ∈ (fetchOp s ctx o fr).2) ↔ o.hasUrl = true := by
  unfold fetchOp
  rw [hi]
  dsimp only
  split_ifs with h1 h2
  · simp [h1]
  · have hu : o.hasUrl = true := by
      revert h1
      cases o.hasUrl <;> simp
    simp [hu]
  · have hu : o.hasUrl = true := by
      revert h1
      cases o.hasUrl <;> simp
    split <;> simp [hu]

theorem fetchOp_inv (s : SysState) (ctx : String) (o : Oracle) (fr : Bool)
    (hInv : SysInv s) :
    SysInv (fetchOp s ctx o fr).1
    ∧ (∀ t ∈ (fetchOp s ctx o fr).1.timers, t ∈ s.timers ∨ t.ctx = ctx) := by
  cases h : s.instances ctx with
  | none =>
    rw [(fetchOp_frame s ctx o fr).2.2 h]
    exact ⟨hInv, fun t ht => Or.inl ht⟩
  | some i =>
    unfold fetchOp
    rw [h]
    dsimp only
    have hclear2 := no_ctx_timers_clear2 s ctx i hInv.2.2 h
    have hsub2 : (clearT i.renderTimeout (clearT i.fetchTimeout s.timers)).Sublist s.timers :=
      (clearT_sublist _ _).trans (clearT_sublist _ _)
    have hS1 : SysInv ⟨s.instances, clearT i.renderTimeout (clearT i.fetchTimeout s.timers),
        s.nextId⟩ := SysInv_sub s _ hsub2 hInv
    split_ifs with h1 h2
    · exact ⟨hS1, fun t ht => Or.inl (hsub2.subset ht)⟩
    · refine ⟨?_, ?_⟩
      · exact schedule_fetch_inv
          ⟨s.instances, clearT i.renderTimeout (clearT i.fetchTimeout s.timers), s.nextId⟩
          ctx i hS1 h (fun t ht hc => (hclear2 t ht hc).elim)
      · intro t ht
        rcases List.mem_append.mp ht with ht | ht
        · exact Or.inl (hsub2.subset ht)
        · simp at ht
          exact Or.inr (by rw [ht])
    · have hS2 : SysInv ⟨updInst s.instances ctx (some { i with hasResponse := true }),
          clearT i.renderTimeout (clearT i.fetchTimeout s.timers), s.nextId⟩ :=
        SysInv_upd ⟨s.instances, clearT i.renderTimeout (clearT i.fetchTimeout s.timers),
          s.nextId⟩ ctx i { i with hasResponse := true } hS1 h rfl rfl
      obtain ⟨hrInv, hrNext, hrTimers⟩ := renderOp_inv
        ⟨updInst s.instances ctx (some { i with hasResponse := true }),
          clearT i.renderTimeout (clearT i.fetchTimeout s.timers), s.nextId⟩ ctx o.renderOk hS2
      obtain ⟨j, hj, hjd, hjk, hjf, hjh⟩ := renderOp_inst_fields
        ⟨updInst s.instances ctx (some { i with hasResponse := true }),
          clearT i.renderTimeout (clearT i.fetchTimeout s.timers), s.nextId⟩ ctx o.renderOk
        { i with hasResponse := true } (updInst_same _ _ _)
      rw [hj]
      dsimp only
      refine ⟨?_, ?_⟩
      · apply schedule_fetch_inv _ ctx j hrInv hj
        intro t ht hc
        rcases hrTimers t ht with ht' | ⟨_, hk⟩
        · exact (hclear2 t ht' hc).elim
        · exact hk
      · intro t ht
        rcases List.mem_append.mp ht with ht | ht
        · rcases hrTimers t ht with ht' | ⟨hc, _⟩
          · exact Or.inl (hsub2.subset ht')
          · exact Or.inr hc
        · simp at ht
          exact Or.inr (by rw [ht])

theorem stepC_inv (s : SysState) (e : Event) (hInv : SysInv s)
    (hv : match e with | .appear ctx _ => s.instances ctx = none | _ => True) :
    SysInv (stepC s e).1 := by
  cases e with
  | appear ctx o =>
    have hs' : SysInv { s with instances := updInst s.instances ctx (some freshInst) } := by
      obtain ⟨hb, hp, ho⟩ := hInv
      refine ⟨hb, hp, ?_⟩
      intro t ht
      obtain ⟨j, hj1, hj2⟩ := ho t ht
      by_cases hc : t.ctx = ctx
      · rw [hc, hv] at hj1
        cases hj1
      · exact ⟨j, by dsimp only; rwa [updInst_ne _ _ _ _ hc], hj2⟩
    exact (fetchOp_inv _ ctx o false hs').1
  | disappear ctx =>
    cases h : s.instances ctx with
    | none => simpa [stepC, h] using hInv
    | some i =>
      simp only [stepC, h]
      obtain ⟨hb, hp, ho⟩ := hInv
      have hclear2 := no_ctx_timers_clear2 s ctx i ho h
      have hsub2 : (clearT i.renderTimeout (clearT i.fetchTimeout s.timers)).Sublist s.timers :=
        (clearT_sublist _ _).trans (clearT_sublist _ _)
      refine ⟨fun t ht => hb t (hsub2.subset ht), hp.sublist hsub2, ?_⟩
      intro t ht
      obtain ⟨j, hj1, hj2⟩ := ho t (hsub2.subset ht)
      by_cases hc : t.ctx = ctx
      · exact (hclear2 t ht hc).elim
      · exact ⟨j, by dsimp only; rwa [updInst_ne _ _ _ _ hc], hj2⟩
  | keyDown ctx t0 =>
    cases h : s.instances ctx with
    | none => simpa [stepC, h] using hInv
    | some i =>
      simp only [stepC, h]
      exact SysInv_upd s ctx i { i with keyDownTime := some t0 } hInv h rfl rfl
  | keyUp ctx now o =>
    cases h : s.instances ctx with
    | none => simpa [stepC, h] using hInv
    | some i =>
      cases hk : i.keyDownTime with
      | none => simpa [stepC, h, hk] using hInv
      | some t0 =>
        simp only [stepC, h, hk]
        by_cases h0 : t0 = 0
        · simpa [h0] using hInv
        · simp only [if_neg h0]
          have hs1 := SysInv_upd s ctx i { i with keyDownTime := none } hInv h rfl rfl
          by_cases h5 : now - t0 ≥ 500
          · simp only [if_pos h5]
            exact (fetchOp_inv _ ctx o true hs1).1
          · simp only [if_neg h5]
            have hs2 := SysInv_upd _ ctx { i with keyDownTime := none }
              { i with keyDownTime := none, displayMode := toggleMode i.displayMode }
              hs1 (updInst_same _ _ _) rfl rfl
            exact (renderOp_inv _ ctx o.renderOk hs2).1
  | settingsChanged ctx o => exact (fetchOp_inv s ctx o false hInv).1
  | fire tid o =>
    cases hf : s.timers.find? (fun u => u.id == tid) with
    | none => simpa [stepC, hf] using hInv
    | some t =>
      simp only [stepC, hf]
      have hs1 : SysInv { s with timers := s.timers.filter (fun u => u.id != tid) } :=
        SysInv_sub s _ (List.filter_sublist _) hInv
      cases t.kind with
      | fetch => exact (fetchOp_inv _ t.ctx o false hs1).1
      | render => exact (renderOp_inv _ t.ctx o.renderOk hs1).1

theorem run_inv (es : List Event) : ∀ s, SysInv s → Valid s es → SysInv (run s es) := by
  induction es with
  | nil => exact fun s h _ => h
  | cons e es ih => exact fun s h hv => ih _ (stepC_inv s e h hv.1) hv.2

theorem timersFor_len_le_one (s : SysState) (hInv : SysInv s) (c : String)
    (k : TimerKind) : (timersFor s c k).length ≤ 1 := by
  obtain ⟨hb, hp, ho⟩ := hInv
  have hsub : (timersFor s c k).Sublist s.timers := List.filter_sublist _
  have hpf : (timersFor s c k).Pairwise (fun a b => a.id ≠ b.id) := hp.sublist hsub
  match hl : timersFor s c k with
  | [] => simp
  | [a] => simp
  | a :: b :: l =>
    exfalso
    have ha : a ∈ timersFor s c k := by
      rw [hl]
      exact List.mem_cons_self _ _
    have hbm : b ∈ timersFor s c k := by
      rw [hl]
      exact List.mem_cons_of_mem _ (List.mem_cons_self _ _)
    have haf := List.mem_filter.mp ha
    have hbf := List.mem_filter.mp hbm
    have hac : a.ctx = c ∧ a.kind = k := by simpa using haf.2
    have hbc : b.ctx = c ∧ b.kind = k := by simpa using hbf.2
    obtain ⟨ia, hia1, hia2⟩ := ho a haf.1
    obtain ⟨ib, hib1, hib2⟩ := ho b hbf.1
    rw [hac.1] at hia1
    rw [hbc.1] at hib1
    rw [hia1] at hib1
    injection hib1 with hib1
    subst hib1
    rw [hac.2] at hia2
    rw [hbc.2] at hib2
    rw [hia2] at hib2
    injection hib2 with hib2
    rw [hl] at hpf
    exact (List.pairwise_cons.mp hpf).1 b (List.mem_cons_self _ _) hib2

theorem no_timers_of_dead (s : SysState) (ctx : String) (hInv : SysInv s)
    (hd : s.instances ctx = none) : ∀ t ∈ s.timers, t.ctx ≠ ctx := by
  intro t ht hc
  obtain ⟨j, hj1, _⟩ := hInv.2.2 t ht
  rw [hc, hd] at hj1
  cases hj1

theorem dead_step (s : SysState) (e : Event) (ctx : String) (hInv : SysInv s)
    (hdead : s.instances ctx = none)
    (hna : ∀ o, e ≠ Event.appear ctx o) :
    (stepC s e).1.instances ctx = none ∧ ∀ p ∈ (stepC s e).2, p.1 ≠ ctx := by
  cases e with
  | appear c o =>
    have hc : ¬c = ctx := fun hcc => hna o (by rw [hcc])
    have hff := fetchOp_frame { s with instances := updInst s.instances c (some freshInst) }
      c o false
    refine ⟨?_, ?_⟩
    · have h1 := hff.1 ctx (fun hcc => hc hcc.symm)
      simp only [stepC]
      rw [h1]
      dsimp only
      rw [updInst_ne _ _ _ _ (fun hcc => hc hcc.symm)]
      exact hdead
    · intro p hp hpc
      have := hff.2.1 p hp
      rw [hpc] at this
      exact hc this.symm
  | disappear c =>
    by_cases hc : c = ctx
    · subst hc
      simp [stepC, hdead]
    · cases h : s.instances c with
      | none => simp [stepC, h, hdead]
      | some i =>
        simp only [stepC, h]
        refine ⟨?_, by simp⟩
        dsimp only
        rw [updInst_ne _ _ _ _ (fun hcc => hc hcc.symm)]
        exact hdead
  | keyDown c t0 =>
    by_cases hc : c = ctx
    · subst hc
      simp [stepC, hdead]
    · cases h : s.instances c with
      | none => simp [stepC, h, hdead]
      | some i =>
        simp only [stepC, h]
        refine ⟨?_, by simp⟩
        dsimp only
        rw [updInst_ne _ _ _ _ (fun hcc => hc hcc.symm)]
        exact hdead
  | keyUp c now o =>
    by_cases hc : c = ctx
    · subst hc
      simp [stepC, hdead]
    · cases h : s.instances c with
      | none => simp [stepC, h, hdead]
      | some i =>
        cases hk : i.keyDownTime with
        | none => simp [stepC, h, hk, hdead]
        | some t0 =>
          simp only [stepC, h, hk]
          by_cases h0 : t0 = 0
          · simp [h0, hdead]
          · simp only [if_neg h0]
            by_cases h5 : now - t0 ≥ 500
            · simp only [if_pos h5]
              have hff := fetchOp_frame
                { s with instances := updInst s.instances c (some { i with keyDownTime := none }) }
                c o true
              refine ⟨?_, ?_⟩
              · rw [hff.1 ctx (fun hcc => hc hcc.symm)]
                dsimp only
                rw [updInst_ne _ _ _ _ (fun hcc => hc hcc.symm)]
                exact hdead
              · intro p hp hpc
                have := hff.2.1 p hp
                rw [hpc] at this
                exact hc this.symm
            · simp only [if_neg h5]
              have hrf := renderOp_frame ⟨updInst (updInst s.instances c (some { i with keyDownTime := none })) c (some { i with keyDownTime := none, displayMode := toggleMode i.displayMode }), s.timers, s.nextId⟩ c o.renderOk
              refine ⟨?_, ?_⟩
              · rw [hrf.1 ctx (fun hcc => hc hcc.symm)]
                dsimp only
                rw [updInst_ne _ _ _ _ (fun hcc => hc hcc.symm),
                  updInst_ne _ _ _ _ (fun hcc => hc hcc.symm)]
                exact hdead
              · intro p hp hpc
                have := hrf.2.1 p hp
                rw [hpc] at this
                exact hc this.symm
  | settingsChanged c o =>
    by_cases hc : c = ctx
    · have hst : stepC s (Event.settingsChanged c o) = fetchOp s c o false := rfl
      rw [hst, hc, (fetchOp_frame s ctx o false).2.2 hdead]
      exact ⟨hdead, by simp⟩
    · have hff := fetchOp_frame s c o false
      refine ⟨?_, ?_⟩
      · exact (hff.1 ctx (fun hcc => hc hcc.symm)).trans hdead
      · intro p hp hpc
        have := hff.2.1 p hp
        rw [hpc] at this
        exact hc this.symm
  | fire tid o =>
    cases hf : s.timers.find? (fun u => u.id == tid) with
    | none => simp [stepC, hf, hdead]
    | some t =>
      have htm : t ∈ s.timers := List.mem_of_find?_eq_some hf
      obtain ⟨j, hj1, _⟩ := hInv.2.2 t htm
      have hc : ¬t.ctx = ctx := fun hcc => by
        rw [hcc, hdead] at hj1
        cases hj1
      simp only [stepC, hf]
      cases t.kind with
      | fetch =>
        have hff := fetchOp_frame { s with timers := s.timers.filter (fun u => u.id != tid) }
          t.ctx o false
        refine ⟨?_, ?_⟩
        · exact (hff.1 ctx (fun hcc => hc hcc.symm)).trans hdead
        · intro p hp hpc
          have := hff.2.1 p hp
          rw [hpc] at this
          exact hc this.symm
      | render =>
        have hrf := renderOp_frame { s with timers := s.timers.filter (fun u => u.id != tid) }
          t.ctx o.renderOk
        refine ⟨?_, ?_⟩
        · exact (hrf.1 ctx (fun hcc => hc hcc.symm)).trans hdead
        · intro p hp hpc
          have := hrf.2.1 p hp
          rw [hpc] at this
          exact hc this.symm

theorem dead_run (es : List Event) : ∀ s ctx, SysInv s → s.instances ctx = none →
    (∀ e ∈ es, ∀ o, e ≠ Event.appear ctx o) → Valid s es →
    (run s es).instances ctx = none ∧ ∀ p ∈ traceCalls s es, p.1 ≠ ctx := by
  induction es with
  | nil =>
    intro s ctx _ hd _ _
    exact ⟨hd, by simp [traceCalls]⟩
  | cons e es ih =>
    intro s ctx hInv hd hna hv
    have hds := dead_step s e ctx hInv hd (hna e (List.mem_cons_self _ _))
    have hInv' := stepC_inv s e hInv hv.1
    have ih' := ih (stepC s e).1 ctx hInv' hds.1
      (fun e' he' => hna e' (List.mem_cons_of_mem _ he')) hv.2
    refine ⟨ih'.1, ?_⟩
    intro p hp
    simp only [traceCalls] at hp
    rcases List.mem_append.mp hp with hp | hp
    · exact hds.2 p hp
    · exact ih'.2 p hp

/-- C7: on key release with a truthy recorded press time, a hold of at
least 500 ms re-invokes the fetch scheduler with `forceRefresh = true` (a
network fetch call happens exactly when a URL is configured), while a
shorter hold toggles the display mode and invokes `render` directly — no
fetch call is emitted, and a render happens exactly when a response is
stored; a key-up with no recorded key-down is ignored. -/
theorem keyUp_semantics (s : SysState) (ctx : String) (now : ℤ) (o : Oracle) (i : Inst)
    (hi : s.instances ctx = some i) :
    (i.keyDownTime = none → stepC s (.keyUp ctx now o) = (s, []))
    ∧ (∀ t0, i.keyDownTime = some t0 → t0 ≠ 0 →
      (now - t0 ≥ 500 →
        stepC s (.keyUp ctx now o)
          = fetchOp { s with instances := updInst s.instances ctx (some { i with keyDownTime := none }) } ctx o true
        ∧ (((ctx, CallKind.fetchCall) ∈ (stepC s (.keyUp ctx now o)).2) ↔ o.hasUrl = true))
      ∧ (now - t0 < 500 →
        (∃ j, (stepC s (.keyUp ctx now o)).1.instances ctx = some j
          ∧ j.displayMode = toggleMode i.displayMode ∧ j.keyDownTime = none)
        ∧ (ctx, CallKind.fetchCall) ∉ (stepC s (.keyUp ctx now o)).2
        ∧ (((ctx, CallKind.renderCall) ∈ (stepC s (.keyUp ctx now o)).2) ↔ i.hasResponse = true))) := by
  constructor
  · intro hk
    simp [stepC, hi, hk]
  · intro t0 hk h0
    constructor
    · intro h5
      have hst : stepC s (.keyUp ctx now o)
          = fetchOp { s with instances := updInst s.instances ctx (some { i with keyDownTime := none }) } ctx o true := by
        simp only [stepC, hi, hk]
        rw [if_neg h0, if_pos h5]
      refine ⟨hst, ?_⟩
      rw [hst]
      exact fetchOp_fetchCall_mem _ ctx o true { i with keyDownTime := none }
        (updInst_same _ _ _)
    · intro h5
      have hst : stepC s (.keyUp ctx now o)
          = renderOp ⟨updInst (updInst s.instances ctx (some { i with keyDownTime := none })) ctx (some { i with keyDownTime := none, displayMode := toggleMode i.displayMode }), s.timers, s.nextId⟩ ctx o.renderOk := by
        simp only [stepC, hi, hk]
        rw [if_neg h0, if_neg (not_le.mpr h5)]
      refine ⟨?_, ?_, ?_⟩
      · rw [hst]
        obtain ⟨j, hj, hjd, hjk, _, _⟩ := renderOp_inst_fields
          ⟨updInst (updInst s.instances ctx (some { i with keyDownTime := none })) ctx (some { i with keyDownTime := none, displayMode := toggleMode i.displayMode }), s.timers, s.nextId⟩
          ctx o.renderOk
          { i with keyDownTime := none, displayMode := toggleMode i.displayMode }
          (updInst_same _ _ _)
        exact ⟨j, hj, hjd, hjk⟩
      · rw [hst]
        exact renderOp_no_fetchCall _ ctx o.renderOk
      · rw [hst]
        exact renderOp_renderCall_mem
          ⟨updInst (updInst s.instances ctx (some { i with keyDownTime := none })) ctx (some { i with keyDownTime := none, displayMode := toggleMode i.displayMode }), s.timers, s.nextId⟩
          ctx o.renderOk
          { i with keyDownTime := none, displayMode := toggleMode i.displayMode }
          (updInst_same _ _ _)

/-- Closed instance of `keyUp_semantics`: an instance with press time 1,
released at 501 (elapsed 500 ms), emits a fetch call exactly when a URL is
configured. -/
theorem keyUp_semantics_witness :
    ((⟨updInst (fun _ => none) "a" (some { freshInst with keyDownTime := some 1 }), [], 0⟩ : SysState).instances "a" = some { freshInst with keyDownTime := some 1 })
    ∧ (1 : ℤ) ≠ 0 ∧ (501 : ℤ) - 1 ≥ 500
    ∧ ((("a", CallKind.fetchCall) ∈ (stepC ⟨updInst (fun _ => none) "a" (some { freshInst with keyDownTime := some 1 }), [], 0⟩ (.keyUp "a" 501 ⟨true, true, true⟩)).2) ↔ (⟨true, true, true⟩ : Oracle).hasUrl = true) := by
  have h0 : (⟨updInst (fun _ => none) "a" (some { freshInst with keyDownTime := some 1 }), [], 0⟩ : SysState).instances "a" = some { freshInst with keyDownTime := some 1 } := by
    simp [updInst]
  refine ⟨h0, by norm_num, by norm_num, ?_⟩
  exact (((keyUp_semantics _ "a" 501 ⟨true, true, true⟩ _ h0).2 1 rfl
    (by norm_num)).1 (by norm_num)).2

/-- C8: from any state satisfying the ownership invariant, every
host-well-formed event trace preserves it, and with it at most one pending
fetch timer and at most one pending render timer per instance and kind;
after a disappearance, and as long as that identity does not re-appear, the
instance stays absent, no pending timer for it exists, and no further fetch
or render call for it is ever performed. -/
theorem timer_discipline (s : SysState) (hInv : SysInv s) :
    (∀ es, Valid s es → SysInv (run s es)
      ∧ ∀ c k, (timersFor (run s es) c k).length ≤ 1)
    ∧ (∀ ctx es, Valid s (Event.disappear ctx :: es) →
        (∀ e ∈ es, ∀ o, e ≠ Event.appear ctx o) →
        (run s (Event.disappear ctx :: es)).instances ctx = none
        ∧ (∀ t ∈ (run s (Event.disappear ctx :: es)).timers, t.ctx ≠ ctx)
        ∧ (∀ p ∈ traceCalls (stepC s (Event.disappear ctx)).1 es, p.1 ≠ ctx)) := by
  constructor
  · intro es hv
    have h := run_inv es s hInv hv
    exact ⟨h, fun c k => timersFor_len_le_one _ h c k⟩
  · intro ctx es hv hna
    have hInv1 := stepC_inv s (Event.disappear ctx) hInv trivial
    have hdead1 : (stepC s (Event.disappear ctx)).1.instances ctx = none := by
      cases h : s.instances ctx with
      | none => simp [stepC, h]
      | some i => simp [stepC, h, updInst_same]
    have hdr := dead_run es (stepC s (Event.disappear ctx)).1 ctx hInv1 hdead1 hna hv.2
    have hinvend := run_inv es _ hInv1 hv.2
    exact ⟨hdr.1, no_timers_of_dead _ ctx hinvend hdr.1, hdr.2⟩

/-- Closed instance of `timer_discipline` on the empty start state: a
trace that makes one instance appear (scheduling its fetch timer) and
disappear leaves the invariant intact, at most one timer per kind, and the
instance absent. -/
theorem timer_discipline_witness :
    SysInv initState
    ∧ SysInv (run initState [Event.appear "a" ⟨true, true, true⟩, Event.disappear "a"])
    ∧ (∀ c k, (timersFor (run initState [Event.appear "a" ⟨true, true, true⟩, Event.disappear "a"]) c k).length ≤ 1)
    ∧ (run initState [Event.disappear "a"]).instances "a" = none := by
  have h0 : SysInv initState :=
    ⟨by simp [initState], by simp [initState], by simp [initState]⟩
  have h := timer_discipline initState h0
  have hv : Valid initState [Event.appear "a" ⟨true, true, true⟩, Event.disappear "a"] :=
    ⟨rfl, trivial, trivial⟩
  refine ⟨h0, (h.1 _ hv).1, (h.1 _ hv).2, ?_⟩
  exact (h.2 "a" [] ⟨trivial, trivial⟩ (by simp)).1
